import Mathlib

/-!
Verification development for `langchain/schema/prompt_template.py`.

The Python module is shallowly embedded: Python `dict`s become insertion-ordered
association lists with dict-style update semantics, Python runtime types become
`PyType` values carrying their name and ancestor names, formatter callables
become an inductive `Formatter` (one constructor per observable arity class),
and `raise ValueError(msg)` becomes `Except.error (PTError.valueError msg)`.
Recursion through the formatter registry (`_format_value` handing itself to
arity-2 formatters) is bounded by an explicit fuel parameter; exhausting the
fuel yields the model-only error `PTError.outOfFuel`, and theorems are stated
at successor fuel where a dispatch step is consumed.
-/

namespace LangChain

set_option autoImplicit false

/-- A Python runtime type: its name together with the names of its strict
ancestors (the tail of its method resolution order). -/
structure PyType where
  name : String
  bases : List String
deriving DecidableEq, Repr

/-- The method resolution order of a type: itself followed by its ancestors. -/
def PyType.mro (t : PyType) : List String :=
  t.name :: t.bases

/-- The universe of Python values the module manipulates: strings, lists,
dicts (string-keyed, insertion ordered), documents (page content plus
metadata), and opaque objects of an arbitrary runtime type. -/
inductive Value where
  | str : String → Value
  | list : List Value → Value
  | dict : List (String × Value) → Value
  | doc : String → List (String × Value) → Value
  | obj : PyType → Nat → Value

/-- Runtime type of the builtin `str`. -/
def strType : PyType := ⟨"str", ["object"]⟩

/-- Runtime type of the builtin `list`. -/
def listType : PyType := ⟨"list", ["object"]⟩

/-- Runtime type of the builtin `dict`. -/
def dictType : PyType := ⟨"dict", ["object"]⟩

/-- Runtime type of `langchain.schema.document.Document`. -/
def documentType : PyType := ⟨"Document", ["Serializable", "BaseModel", "object"]⟩

/-- `type(value)`: the runtime type of a value. -/
def Value.typeOf : Value → PyType
  | .str _ => strType
  | .list _ => listType
  | .dict _ => dictType
  | .doc _ _ => documentType
  | .obj t _ => t

/-- `isinstance(value, t)`: the value's runtime type is `t` or has `t` among
its ancestors (name-based, a type name is assumed to determine the type). -/
def isinstance (value : Value) (t : PyType) : Bool :=
  value.typeOf.mro.contains t.name

/-- Errors raised by the module. `valueError msg` models
`raise ValueError(msg)` (surfaced by pydantic as ValidationError at
construction time). `outOfFuel` is a model-only artifact of bounding the
formatter recursion depth. -/
inductive PTError where
  | valueError : String → PTError
  | outOfFuel : PTError
deriving DecidableEq, Repr

/-- Insertion-ordered association list modelling a Python `dict`. -/
abbrev PyDict (α : Type) := List (String × α)

/-- First-match lookup in an association list, modelling `d[k]` / `d.get(k)`.
Generic in the key type so the same model serves string-keyed dicts and the
type-keyed formatter registry. -/
def alookup {κ : Type} [DecidableEq κ] {α : Type} : List (κ × α) → κ → Option α
  | [], _ => none
  | p :: rest, k => if p.1 = k then some p.2 else alookup rest k

/-- The key list of an association list, modelling `d.keys()`. -/
def dictKeys {κ α : Type} (d : List (κ × α)) : List κ :=
  d.map Prod.fst

/-- Python dict update `d[k] = v`: if the key is present its value is replaced
in place (position preserved), otherwise the pair is appended at the end. -/
def dictInsert {α : Type} (d : PyDict α) (k : String) (v : α) : PyDict α :=
  if (alookup d k).isSome then
    d.map fun p => if p.1 = k then (k, v) else p
  else
    d ++ [(k, v)]

/-- Python dict merge `{**d1, **d2}`: start from `d1` and update with each
entry of `d2` in order (`d2` wins on key collision). -/
def dictMerge {α : Type} (d1 d2 : PyDict α) : PyDict α :=
  d2.foldl (fun acc p => dictInsert acc p.1 p.2) d1

/-- A formatter callable as stored in a registry, split by the arity that
`inspect.signature` reports:
* `f1`: one declared parameter, called with the value only;
* `f2`: two declared parameters, called with the value and a recursive
  dispatch callback;
* `noSig`: `inspect.signature` raises `ValueError` (builtins such as
  `operator.attrgetter` instances), so the arity defaults to 1;
* `badArity reprStr n`: a callable whose signature reports `n ∉ {1, 2}`
  parameters; `reprStr` models the Python `repr` of the callable used in the
  error message. -/
inductive Formatter where
  | f1 : (Value → Value) → Formatter
  | f2 : (Value → (Value → Except PTError Value) → Except PTError Value) → Formatter
  | noSig : (Value → Value) → Formatter
  | badArity : String → Nat → Formatter

/-- The declared parameter count `len(inspect.signature(formatter).parameters)`
(after the `except ValueError: arity = 1` fallback). -/
def Formatter.arity : Formatter → Nat
  | .f1 _ => 1
  | .f2 _ => 2
  | .noSig _ => 1
  | .badArity _ n => n

/-- A formatter registry: insertion-ordered mapping from runtime type to
formatter, modelling the Python `Mapping[type, FormatterType]`. -/
abbrev Registry := List (PyType × Formatter)

/-- The message of the `ValueError` raised for a formatter of unsupported
arity. -/
def formatterArityMsg (reprStr : String) (arity : Nat) : String :=
  s!"Formatter {reprStr} has too many arguments ({arity}), expected 1 or 2."

/-- `_apply_formatter(formatters, formatter, value)`: dispatch on the arity
reported by `inspect.signature`. The recursive callback
`partial(_format_value, formatters)` is received as the explicit argument
`recurse` (the caller `_format_value` passes itself, with fuel threaded). -/
def _apply_formatter (recurse : Value → Except PTError Value)
    (formatter : Formatter) (value : Value) : Except PTError Value :=
  match formatter with
  | .f1 f => Except.ok (f value)
  | .noSig f => Except.ok (f value)
  | .f2 f => f value recurse
  | .badArity reprStr n => Except.error (PTError.valueError (formatterArityMsg reprStr n))

/-- `_format_value(formatters, value)`: exact runtime-type lookup first, then
the first registry entry (insertion order) whose type the value is-a, else the
value unchanged. `fuel` bounds the recursion depth through arity-2
formatters; each dispatch step consumes one unit. -/
def _format_value : Nat → Registry → Value → Except PTError Value
  | 0, _, _ => Except.error PTError.outOfFuel
  | fuel + 1, formatters, value =>
    -- First check for exact type match
    match alookup formatters value.typeOf with
    | some formatter =>
      _apply_formatter (fun v => _format_value fuel formatters v) formatter value
    | none =>
      -- Then check for subclass match
      match formatters.find? (fun p => isinstance value p.1) with
      | some pf =>
        _apply_formatter (fun v => _format_value fuel formatters v) pf.2 value
      | none => Except.ok value

/-- `PROMPT_DEFAULT_FORMATTERS`: documents reduce to their page content
(`attrgetter("page_content")`, whose signature `inspect` cannot read), lists
format each element, dicts format each value. The non-matching branches of the
container formatters are unreachable through dispatch (the registry only routes
values of the corresponding runtime type to them). -/
def PROMPT_DEFAULT_FORMATTERS : Registry :=
  [ (documentType, Formatter.noSig fun v =>
      match v with
      | .doc page_content _ => .str page_content
      | v => v),
    (listType, Formatter.f2 fun list_value format =>
      match list_value with
      | .list es => (es.mapM format).map Value.list
      | v => Except.ok v),
    (dictType, Formatter.f2 fun dict_value format =>
      match dict_value with
      | .dict es => (es.mapM (fun p => (format p.2).map fun w => (p.1, w))).map Value.dict
      | v => Except.ok v) ]

/-- A partial-variable binding: a literal string or a zero-argument callable
producing a string (`Union[str, Callable[[], str]]`). -/
inductive PartialValue where
  | pstr : String → PartialValue
  | pfun : (Unit → String) → PartialValue

/-- Resolution of one partial variable inside `_prepare_variables`:
`v if isinstance(v, str) else v()` — a plain string is used as-is, a callable
is invoked now. -/
def resolvePartial : PartialValue → String
  | .pstr s => s
  | .pfun f => f ()

/-- The field state of a `BasePromptTemplate` (the abstract renderer methods
`format`/`format_prompt` of concrete subclasses are out of scope and are
passed as explicit function arguments where needed). `outputParser` is an
opaque reference. -/
structure PromptTemplate where
  formatters : Registry
  input_variables : List String
  outputParser : Option Nat
  partial_variables : PyDict PartialValue

/-- The overlap `set(input_variables).intersection(partial_variables)`
reported by validation, listed here in `input_variables` order with
duplicates removed (CPython leaves the listing order of a set unspecified). -/
def overlapList (input_variables : List String)
    (partial_variables : PyDict PartialValue) : List String :=
  (input_variables.filter fun x => (dictKeys partial_variables).contains x).dedup

/-- `validate_variable_names` (a pydantic root validator, run at every
construction): rejects the reserved name "stop" in either variable
collection and rejects any overlap between input and partial variable
names. -/
def validate_variable_names (input_variables : List String)
    (partial_variables : PyDict PartialValue) : Except PTError Unit :=
  if "stop" ∈ input_variables then
    Except.error (PTError.valueError
      "Cannot have an input variable named 'stop', as it is used internally, please rename.")
  else if "stop" ∈ dictKeys partial_variables then
    Except.error (PTError.valueError
      "Cannot have an partial variable named 'stop', as it is used internally, please rename.")
  else if overlapList input_variables partial_variables ≠ [] then
    Except.error (PTError.valueError
      s!"Found overlapping input and partial variables: {overlapList input_variables partial_variables}")
  else
    Except.ok ()

/-- Construction of a prompt template (`type(self)(**fields)` through
pydantic): runs `validate_variable_names` once and returns the instance on
success. -/
def mkPromptTemplate (formatters : Registry) (input_variables : List String)
    (outputParser : Option Nat) (partial_variables : PyDict PartialValue) :
    Except PTError PromptTemplate :=
  match validate_variable_names input_variables partial_variables with
  | Except.error e => Except.error e
  | Except.ok _ => Except.ok ⟨formatters, input_variables, outputParser, partial_variables⟩

/-- An admissible materialisation of `list(set(xs))`: CPython leaves the
iteration order of a `set` unspecified (string hashing is seed-randomised),
so the model quantifies over any function that returns the members without
duplicates in some order. -/
def IsSetListing (f : List String → List String) : Prop :=
  ∀ xs : List String, (f xs).Nodup ∧ ∀ a : String, a ∈ f xs ↔ a ∈ xs

/-- One admissible set listing: keep the first occurrence of each member. -/
def dedupListing (xs : List String) : List String :=
  xs.dedup

/-- Another admissible set listing: first occurrences, in reversed order. -/
def reverseListing (xs : List String) : List String :=
  xs.dedup.reverse

/-- `BasePromptTemplate.partial(**kwargs)`: copy the field state, replace
`input_variables` by `list(set(input_variables).difference(kwargs))`
(materialised by the admissible set listing `setListing`), merge `kwargs`
into `partial_variables`, and construct a new instance of the same type
(which re-runs validation). The receiver is left untouched. -/
def PromptTemplate.partialBind (setListing : List String → List String)
    (t : PromptTemplate) (kwargs : PyDict PartialValue) :
    Except PTError PromptTemplate :=
  mkPromptTemplate t.formatters
    (setListing (t.input_variables.filter fun x => (alookup kwargs x).isNone))
    t.outputParser
    (dictMerge t.partial_variables kwargs)

/-- The dict comprehension `{k: _format_value(formatters, v) for k, v in xs}`:
formats each value in order, propagating the first raised error. -/
def formatEntries (fuel : Nat) (formatters : Registry) :
    PyDict Value → Except PTError (PyDict Value)
  | [] => Except.ok []
  | p :: rest => do
    let w ← _format_value fuel formatters p.2
    let ws ← formatEntries fuel formatters rest
    Except.ok ((p.1, w) :: ws)

/-- `BasePromptTemplate._prepare_variables(**kwargs)`: resolve each partial
variable (strings as-is, callables invoked now), overlay the supplied
`kwargs` (supplied wins on collision), then pass every value of the merged
dict through the formatter registry. -/
def PromptTemplate._prepare_variables (fuel : Nat) (t : PromptTemplate)
    (kwargs : PyDict Value) : Except PTError (PyDict Value) :=
  let partial_kwargs : PyDict Value :=
    t.partial_variables.map fun p => (p.1, Value.str (resolvePartial p.2))
  let all_variables := dictMerge partial_kwargs kwargs
  formatEntries fuel t.formatters all_variables

/-- Split a character list on a separator character (structural analogue of
`str.split`, used so that path computations reduce inside the kernel). -/
def splitOnChar (c : Char) : List Char → List (List Char)
  | [] => [[]]
  | x :: rest =>
    match splitOnChar c rest, decide (x = c) with
    | r, true => [] :: r
    | [], false => [[x]]
    | g :: gs, false => (x :: g) :: gs

/-- `pathlib.Path(p).suffix`: the extension of the final path component,
empty for a bare name or a leading-dot-only name. -/
def pathSuffix (p : String) : String :=
  let nm := (splitOnChar '/' p.toList).getLastD []
  match splitOnChar '.' nm with
  | [] => ""
  | [_] => ""
  | first :: rest =>
    if first.isEmpty && rest.length == 1 then ""
    else String.mk ('.' :: rest.getLastD [])

/-- Serialization of a partial-variable binding inside the dict
representation (only reachable with string bindings, since `save` rejects
any partial variables before serializing). -/
def serializePartialValue : PartialValue → Value
  | .pstr s => Value.str s
  | .pfun _ => Value.obj ⟨"function", ["object"]⟩ 0

/-- `BasePromptTemplate.dict()`: the pydantic field dump minus the
`formatters` entry, plus the `_type` discriminator supplied by the concrete
subclass's `_prompt_type` property (passed in as `prompt_type`). -/
def PromptTemplate.dictOf (t : PromptTemplate) (prompt_type : String) :
    PyDict Value :=
  [ ("input_variables", Value.list (t.input_variables.map Value.str)),
    ("outputParser",
      match t.outputParser with
      | none => Value.obj ⟨"NoneType", ["object"]⟩ 0
      | some n => Value.obj ⟨"BaseOutputParser", ["Serializable", "object"]⟩ n),
    ("partial_variables",
      Value.dict (t.partial_variables.map fun p => (p.1, serializePartialValue p.2))),
    ("_type", Value.str prompt_type) ]

/-- The file write performed by a successful `save`: the target path and the
dict representation serialized as pretty JSON or block YAML. -/
inductive SaveWrite where
  | jsonWrite : String → PyDict Value → SaveWrite
  | yamlWrite : String → PyDict Value → SaveWrite

/-- `BasePromptTemplate.save(file_path)`: reject any bound partial variables
first; then (after creating parent directories, a side effect outside the
model) serialize and write JSON or YAML according to the path suffix, or
raise naming the required extensions. An `Except.error` result means no file
was written. -/
def PromptTemplate.save (t : PromptTemplate) (prompt_type : String)
    (file_path : String) : Except PTError SaveWrite :=
  if !t.partial_variables.isEmpty then
    Except.error (PTError.valueError "Cannot save prompt with partial variables.")
  else
    let prompt_dict := t.dictOf prompt_type
    if pathSuffix file_path = ".json" then
      Except.ok (SaveWrite.jsonWrite file_path prompt_dict)
    else if pathSuffix file_path = ".yaml" then
      Except.ok (SaveWrite.yamlWrite file_path prompt_dict)
    else
      Except.error (PTError.valueError s!"{file_path} must be json or yaml")

/-- `langchain.schema.document.Document`: page content plus metadata. -/
structure Document where
  page_content : String
  metadata : PyDict Value

/-- The candidate variable mapping of `format_document`:
`{"page_content": doc.page_content, **doc.metadata}` — the content field
first, metadata merged after (metadata wins on collision). -/
def docBaseInfo (doc : Document) : PyDict Value :=
  dictMerge [("page_content", Value.str doc.page_content)] doc.metadata

/-- The input variables absent from the candidate mapping
(`set(prompt.input_variables).difference(base_info)`), listed in
`input_variables` order with duplicates removed (set order is unspecified in
CPython). -/
def missingMetadata (doc : Document) (prompt : PromptTemplate) : List String :=
  (prompt.input_variables.filter fun iv => (alookup (docBaseInfo doc) iv).isNone).dedup

/-- The message of the `ValueError` raised by `format_document` when input
variables are missing from the candidate mapping. -/
def missingMetadataMsg (required_metadata missing_metadata : List String) : String :=
  s!"Document prompt requires documents to have metadata variables: {required_metadata}. Received document with missing metadata: {missing_metadata}."

/-- `format_document(doc, prompt)`: build the candidate mapping, fail listing
the required and missing names if any input variable is absent, otherwise
call the template's `format` (the abstract renderer, passed as `render`)
with exactly the entries named by `input_variables` and return its result.
The `getD` default is unreachable: the guard ensures every key is present. -/
def format_document (render : PyDict Value → String) (doc : Document)
    (prompt : PromptTemplate) : Except PTError String :=
  let base_info := docBaseInfo doc
  let missing_metadata := missingMetadata doc prompt
  if missing_metadata.length > 0 then
    let required_metadata := prompt.input_variables.filter fun iv => iv ≠ "page_content"
    Except.error (PTError.valueError (missingMetadataMsg required_metadata missing_metadata))
  else
    let document_info := prompt.input_variables.foldl
      (fun acc k => dictInsert acc k ((alookup base_info k).getD (Value.str ""))) []
    Except.ok (render document_info)

/-! ### Association-list lemmas -/

theorem alookup_append {κ α : Type} [DecidableEq κ] (d1 d2 : List (κ × α)) (k : κ) :
    alookup (d1 ++ d2) k =
      match alookup d1 k with
      | some v => some v
      | none => alookup d2 k := by
  induction d1 with
  | nil => rfl
  | cons p rest ih =>
    by_cases h : p.1 = k <;> simp [alookup, h, ih]

theorem alookup_eq_none_iff {κ α : Type} [DecidableEq κ] (d : List (κ × α)) (k : κ) :
    alookup d k = none ↔ k ∉ dictKeys d := by
  induction d with
  | nil => simp [alookup, dictKeys]
  | cons p rest ih =>
    by_cases h : p.1 = k
    · simp [alookup, dictKeys, h]
    · simp [alookup, dictKeys, h, Ne.symm h, ih]

theorem alookup_some_mem {κ α : Type} [DecidableEq κ] {d : List (κ × α)} {k : κ} {v : α}
    (h : alookup d k = some v) : (k, v) ∈ d := by
  induction d with
  | nil => simp [alookup] at h
  | cons p rest ih =>
    obtain ⟨a, b⟩ := p
    by_cases hp : a = k
    · subst hp
      simp only [alookup, if_pos] at h
      obtain rfl : b = v := Option.some_injective _ h
      exact List.mem_cons_self _ _
    · rw [alookup, if_neg hp] at h
      exact List.mem_cons_of_mem _ (ih h)

theorem alookup_update_self {α : Type} (d : PyDict α) (k : String) (v : α)
    (h : (alookup d k).isSome) :
    alookup (d.map fun p => if p.1 = k then (k, v) else p) k = some v := by
  induction d with
  | nil => simp [alookup] at h
  | cons p rest ih =>
    by_cases hp : p.1 = k
    · simp [alookup, hp]
    · rw [alookup, if_neg hp] at h
      simpa [alookup, hp] using ih h

theorem alookup_update_other {α : Type} (d : PyDict α) (k : String) (v : α)
    (k' : String) (hkk : k' ≠ k) :
    alookup (d.map fun p => if p.1 = k then (k, v) else p) k' = alookup d k' := by
  induction d with
  | nil => rfl
  | cons p rest ih =>
    by_cases hp : p.1 = k
    · simp [alookup, hp, Ne.symm hkk, ih]
    · by_cases hq : p.1 = k' <;> simp [alookup, hp, hq, hkk, ih]

theorem alookup_dictInsert {α : Type} (d : PyDict α) (k : String) (v : α) (k' : String) :
    alookup (dictInsert d k v) k' = if k' = k then some v else alookup d k' := by
  unfold dictInsert
  by_cases hk : (alookup d k).isSome
  · rw [if_pos hk]
    by_cases hkk : k' = k
    · subst hkk
      rw [if_pos rfl]
      exact alookup_update_self d k' v hk
    · rw [if_neg hkk]
      exact alookup_update_other d k v k' hkk
  · rw [if_neg hk, alookup_append]
    have hnone : alookup d k = none := Option.not_isSome_iff_eq_none.mp hk
    by_cases hkk : k' = k
    · subst hkk
      simp [hnone, alookup]
    · cases h' : alookup d k' <;> simp [alookup, h', hkk, Ne.symm hkk]

theorem dictKeys_append {κ α : Type} (a b : List (κ × α)) :
    dictKeys (a ++ b) = dictKeys a ++ dictKeys b :=
  List.map_append _ _ _

theorem dictKeys_update {α : Type} (d : PyDict α) (k : String) (v : α) :
    dictKeys (d.map fun p => if p.1 = k then (k, v) else p) = dictKeys d := by
  induction d with
  | nil => rfl
  | cons p rest ih =>
    obtain ⟨a, b⟩ := p
    by_cases hp : a = k <;> simpa [dictKeys, hp] using ih

theorem mem_dictKeys_dictInsert {α : Type} (d : PyDict α) (k : String) (v : α)
    (x : String) :
    x ∈ dictKeys (dictInsert d k v) ↔ x ∈ dictKeys d ∨ x = k := by
  unfold dictInsert
  by_cases hk : (alookup d k).isSome
  · rw [if_pos hk, dictKeys_update]
    have hkmem : k ∈ dictKeys d := by
      by_contra hnm
      rw [(alookup_eq_none_iff d k).mpr hnm] at hk
      simp at hk
    exact ⟨Or.inl, fun h => h.elim id fun e => e ▸ hkmem⟩
  · rw [if_neg hk, dictKeys_append]
    simp [dictKeys]

theorem dictMerge_nil {α : Type} (a : PyDict α) : dictMerge a [] = a := rfl

theorem dictMerge_cons {α : Type} (a : PyDict α) (p : String × α) (b : PyDict α) :
    dictMerge a (p :: b) = dictMerge (dictInsert a p.1 p.2) b := rfl

theorem alookup_dictMerge {α : Type} (a b : PyDict α) (hb : (dictKeys b).Nodup)
    (k : String) :
    alookup (dictMerge a b) k =
      match alookup b k with
      | some v => some v
      | none => alookup a k := by
  induction b generalizing a with
  | nil => simp [dictMerge, alookup]
  | cons p rest ih =>
    rw [dictMerge_cons, ih (dictInsert a p.1 p.2) (by simpa [dictKeys] using hb.of_cons)]
    by_cases hk : p.1 = k
    · have hrest : alookup rest k = none := by
        rw [alookup_eq_none_iff]
        intro hmem
        rw [dictKeys] at hb
        exact (List.nodup_cons.mp hb).1 (hk ▸ hmem)
      simp [alookup, hk, hrest, alookup_dictInsert]
    · cases h' : alookup rest k <;>
        simp [alookup, hk, h', alookup_dictInsert, Ne.symm hk]

theorem mem_dictKeys_dictMerge {α : Type} (a b : PyDict α) (x : String) :
    x ∈ dictKeys (dictMerge a b) ↔ x ∈ dictKeys a ∨ x ∈ dictKeys b := by
  induction b generalizing a with
  | nil => simp [dictMerge, dictKeys]
  | cons p rest ih =>
    rw [dictMerge_cons, ih]
    rw [mem_dictKeys_dictInsert]
    simp [dictKeys]
    tauto

theorem alookup_map_value {α β : Type} (g : α → β) (d : PyDict α) (k : String) :
    alookup (d.map fun p => (p.1, g p.2)) k = (alookup d k).map g := by
  induction d with
  | nil => rfl
  | cons p rest ih =>
    by_cases h : p.1 = k <;> simp [alookup, h, ih]

theorem dictInsert_of_not_mem {α : Type} {d : PyDict α} {k : String} (v : α)
    (h : k ∉ dictKeys d) :
    dictInsert d k v = d ++ [(k, v)] := by
  unfold dictInsert
  rw [if_neg]
  rw [(alookup_eq_none_iff d k).mpr h]
  simp

/-! ### Dispatch, preparation and validation lemmas -/

theorem isinstance_self (v : Value) : isinstance v v.typeOf = true := by
  simp [isinstance, PyType.mro]

theorem find?_append_of_prefix_false {α : Type} (pred : α → Bool)
    (l1 l2 : List α) (h : ∀ x ∈ l1, pred x = false) :
    (l1 ++ l2).find? pred = l2.find? pred := by
  induction l1 with
  | nil => rfl
  | cons a as ih =>
    simp only [List.cons_append, List.find?]
    rw [h a (by simp)]
    exact ih fun x hx => h x (by simp [hx])

theorem alookup_eq_none_of_no_isinstance {R : Registry} {v : Value}
    (h : ∀ p ∈ R, isinstance v p.1 = false) :
    alookup R v.typeOf = none := by
  cases hl : alookup R v.typeOf with
  | none => rfl
  | some f =>
    have hmem := alookup_some_mem hl
    have := h _ hmem
    rw [isinstance_self v] at this
    cases this

theorem formatEntries_lookup {fuel : Nat} {R : Registry} :
    ∀ {xs ys : PyDict Value}, formatEntries fuel R xs = Except.ok ys →
    ∀ k : String,
      (∀ v, alookup xs k = some v →
        ∃ w, _format_value fuel R v = Except.ok w ∧ alookup ys k = some w) ∧
      (alookup xs k = none → alookup ys k = none) := by
  intro xs
  induction xs with
  | nil =>
    intro ys h k
    simp only [formatEntries] at h
    obtain rfl : ([] : PyDict Value) = ys := by
      cases h
      rfl
    simp [alookup]
  | cons p rest ih =>
    intro ys h k
    simp only [formatEntries, bind, Except.bind] at h
    cases hw : _format_value fuel R p.2 with
    | error e => rw [hw] at h; cases h
    | ok w =>
      rw [hw] at h
      cases hws : formatEntries fuel R rest with
      | error e => rw [hws] at h; cases h
      | ok ws =>
        rw [hws] at h
        obtain rfl : (p.1, w) :: ws = ys := by cases h; rfl
        constructor
        · intro v hv
          by_cases hk : p.1 = k
          · rw [alookup, if_pos hk] at hv
            obtain rfl : p.2 = v := Option.some_injective _ hv
            exact ⟨w, hw, by rw [alookup, if_pos hk]⟩
          · rw [alookup, if_neg hk] at hv
            obtain ⟨u, hu, hu'⟩ := (ih hws k).1 v hv
            exact ⟨u, hu, by rw [alookup, if_neg hk]; exact hu'⟩
        · intro hnone
          by_cases hk : p.1 = k
          · rw [alookup, if_pos hk] at hnone
            cases hnone
          · rw [alookup, if_neg hk] at hnone
            rw [alookup, if_neg hk]
            exact (ih hws k).2 hnone

theorem foldl_dictInsert_eq_map (f : String → Value) :
    ∀ (ks : List String) (acc : PyDict Value), ks.Nodup →
      (∀ k ∈ ks, k ∉ dictKeys acc) →
      ks.foldl (fun acc k => dictInsert acc k (f k)) acc
        = acc ++ ks.map fun k => (k, f k) := by
  intro ks
  induction ks with
  | nil => simp
  | cons k rest ih =>
    intro acc hnd hfresh
    simp only [List.foldl_cons]
    rw [dictInsert_of_not_mem (f k) (hfresh k (by simp))]
    rw [ih (acc ++ [(k, f k)]) hnd.of_cons ?fresh]
    · simp
    case fresh =>
      intro k' hk'
      rw [dictKeys_append]
      simp only [List.mem_append, dictKeys, List.map_cons, List.map_nil,
        List.mem_singleton]
      rintro (hmem | rfl)
      · exact hfresh k' (by simp [hk']) hmem
      · exact (List.nodup_cons.mp hnd).1 hk'

theorem mem_overlapList (iv : List String) (pv : PyDict PartialValue) (x : String) :
    x ∈ overlapList iv pv ↔ x ∈ iv ∧ x ∈ dictKeys pv := by
  unfold overlapList
  simp [List.mem_dedup, List.mem_filter]

theorem overlapList_eq_nil_iff (iv : List String) (pv : PyDict PartialValue) :
    overlapList iv pv = [] ↔ ∀ x ∈ iv, x ∉ dictKeys pv := by
  unfold overlapList
  rw [List.dedup_eq_nil]
  simp [List.filter_eq_nil_iff]

theorem validate_ok_iff (iv : List String) (pv : PyDict PartialValue) :
    validate_variable_names iv pv = Except.ok () ↔
      "stop" ∉ iv ∧ "stop" ∉ dictKeys pv ∧ ∀ x ∈ iv, x ∉ dictKeys pv := by
  unfold validate_variable_names
  split_ifs with h1 h2 h3
  · simp [h1]
  · simp [h1, h2]
  · constructor
    · intro h
      cases h
    · rintro ⟨-, -, hdisj⟩
      exact absurd ((overlapList_eq_nil_iff iv pv).mpr hdisj) h3
  · push_neg at h3
    simp only [true_iff, eq_self_iff_true]
    exact ⟨h1, h2, (overlapList_eq_nil_iff iv pv).mp h3⟩

theorem mkPromptTemplate_ok_iff (formatters : Registry) (iv : List String)
    (op : Option Nat) (pv : PyDict PartialValue) (T : PromptTemplate) :
    mkPromptTemplate formatters iv op pv = Except.ok T ↔
      validate_variable_names iv pv = Except.ok () ∧ T = ⟨formatters, iv, op, pv⟩ := by
  unfold mkPromptTemplate
  cases h : validate_variable_names iv pv with
  | error e => simp [h]
  | ok u =>
    cases u
    simp only [h, true_and]
    constructor
    · intro he
      cases he
      rfl
    · intro he
      rw [he]

/-! ### Claim theorems -/

/-- C1: for every registry and value, `_format_value` first uses the
formatter registered under the value's exact runtime type if present;
otherwise it scans entries in insertion order and applies the first entry
whose type the value is-a; and if no entry matches at all it returns the
value unchanged. -/
theorem format_value_dispatch (R : Registry) (v : Value) (fuel : Nat) :
    (∀ f : Formatter, alookup R v.typeOf = some f →
      _format_value (fuel + 1) R v
        = _apply_formatter (fun w => _format_value fuel R w) f v) ∧
    (∀ (R1 R2 : Registry) (t : PyType) (f : Formatter),
      R = R1 ++ (t, f) :: R2 → alookup R v.typeOf = none →
      (∀ p ∈ R1, isinstance v p.1 = false) → isinstance v t = true →
      _format_value (fuel + 1) R v
        = _apply_formatter (fun w => _format_value fuel R w) f v) ∧
    ((∀ p ∈ R, isinstance v p.1 = false) →
      _format_value (fuel + 1) R v = Except.ok v) := by
  refine ⟨?_, ?_, ?_⟩
  · intro f hf
    simp only [_format_value, hf]
  · intro R1 R2 t f hR hl hpre ht
    subst hR
    simp only [_format_value, hl]
    rw [find?_append_of_prefix_false _ R1 _ hpre]
    have hfind : List.find? (fun x : PyType × Formatter => isinstance v x.1)
        ((t, f) :: R2) = some (t, f) := by
      simp [List.find?_cons, ht]
    rw [hfind]
  · intro h
    have hl := alookup_eq_none_of_no_isinstance h
    have hf : R.find? (fun p => isinstance v p.1) = none :=
      List.find?_eq_none.mpr fun x hx => by simp [h x hx]
    simp only [_format_value, hl, hf]

/-- Witness for C1: a value whose type matches no registry entry passes
through unchanged. -/
theorem format_value_dispatch_witness :
    _format_value 1 [(strType, Formatter.f1 fun w => w)]
        (Value.obj ⟨"Foo", ["object"]⟩ 0)
      = Except.ok (Value.obj ⟨"Foo", ["object"]⟩ 0) :=
  (format_value_dispatch [(strType, Formatter.f1 fun w => w)]
    (Value.obj ⟨"Foo", ["object"]⟩ 0) 0).2.2 (by decide)

/-- C4: formatter invocation dispatches on the declared parameter count: one
parameter → called with the value only; two parameters → called with the
value and the recursive dispatch callback bound to the same registry; any
other count → ValueError naming the formatter (its repr) and its arity. -/
theorem apply_formatter_arity (R : Registry) (v : Value) (fuel : Nat)
    (recurse : Value → Except PTError Value) (g1 : Value → Value)
    (g2 : Value → (Value → Except PTError Value) → Except PTError Value)
    (reprStr : String) (n : Nat) :
    _apply_formatter recurse (Formatter.f1 g1) v = Except.ok (g1 v) ∧
    (Formatter.f1 g1).arity = 1 ∧
    (alookup R v.typeOf = some (Formatter.f2 g2) →
      _format_value (fuel + 1) R v = g2 v fun w => _format_value fuel R w) ∧
    (Formatter.f2 g2).arity = 2 ∧
    (n ≠ 1 → n ≠ 2 →
      _apply_formatter recurse (Formatter.badArity reprStr n) v
        = Except.error (PTError.valueError (formatterArityMsg reprStr n)) ∧
      (Formatter.badArity reprStr n).arity = n) := by
  refine ⟨rfl, rfl, ?_, rfl, fun _ _ => ⟨rfl, rfl⟩⟩
  intro h
  simp only [_format_value, h]
  rfl

/-- Witness for C4: a registered two-parameter formatter receives the value
and the dispatch bound to the same registry; a three-parameter formatter
raises naming its arity. -/
theorem apply_formatter_arity_witness :
    (_format_value 1 [(strType, Formatter.f2 fun w r => r w)] (Value.str "a")
      = (fun (w : Value) (r : Value → Except PTError Value) => r w)
          (Value.str "a")
          (fun w => _format_value 0 [(strType, Formatter.f2 fun w r => r w)] w)) ∧
    (_apply_formatter (fun w => Except.ok w) (Formatter.badArity "f" 3) (Value.str "a")
      = Except.error (PTError.valueError (formatterArityMsg "f" 3))) := by
  constructor
  · exact (apply_formatter_arity [(strType, Formatter.f2 fun w r => r w)]
      (Value.str "a") 0 (fun w => Except.ok w) (fun w => w) (fun w r => r w)
      "f" 3).2.2.1 rfl
  · exact ((apply_formatter_arity [(strType, Formatter.f2 fun w r => r w)]
      (Value.str "a") 0 (fun w => Except.ok w) (fun w => w) (fun w r => r w)
      "f" 3).2.2.2.2 (by decide) (by decide)).1

/-- C5: construction fails when the reserved name "stop" appears among the
input variables or among the partial variable names, and when the two name
sets intersect — in which case the error lists the overlapping names; the
check is the single validation pass run at construction. -/
theorem construction_validation (formatters : Registry) (iv : List String)
    (op : Option Nat) (pv : PyDict PartialValue) :
    ("stop" ∈ iv → ∃ m, mkPromptTemplate formatters iv op pv
        = Except.error (PTError.valueError m)) ∧
    ("stop" ∈ dictKeys pv → ∃ m, mkPromptTemplate formatters iv op pv
        = Except.error (PTError.valueError m)) ∧
    (∀ x, x ∈ iv → x ∈ dictKeys pv → "stop" ∉ iv → "stop" ∉ dictKeys pv →
      mkPromptTemplate formatters iv op pv
        = Except.error (PTError.valueError
            s!"Found overlapping input and partial variables: {overlapList iv pv}")
      ∧ x ∈ overlapList iv pv) := by
  refine ⟨?_, ?_, ?_⟩
  · intro h1
    refine ⟨"Cannot have an input variable named 'stop', as it is used internally, please rename.", ?_⟩
    unfold mkPromptTemplate validate_variable_names
    rw [if_pos h1]
  · intro h2
    by_cases h1 : "stop" ∈ iv
    · refine ⟨"Cannot have an input variable named 'stop', as it is used internally, please rename.", ?_⟩
      unfold mkPromptTemplate validate_variable_names
      rw [if_pos h1]
    · refine ⟨"Cannot have an partial variable named 'stop', as it is used internally, please rename.", ?_⟩
      unfold mkPromptTemplate validate_variable_names
      rw [if_neg h1, if_pos h2]
  · intro x hxiv hxpv h1 h2
    have hx : x ∈ overlapList iv pv := (mem_overlapList iv pv x).mpr ⟨hxiv, hxpv⟩
    have hne : overlapList iv pv ≠ [] := List.ne_nil_of_mem hx
    refine ⟨?_, hx⟩
    unfold mkPromptTemplate validate_variable_names
    rw [if_neg h1, if_neg h2, if_pos hne]

/-- Witness for C5: "stop" as an input variable is rejected, and an
overlapping name "x" is rejected with an error listing it. -/
theorem construction_validation_witness :
    (∃ m, mkPromptTemplate [] ["stop"] none []
        = Except.error (PTError.valueError m)) ∧
    (mkPromptTemplate [] ["x"] none [("x", PartialValue.pstr "a")]
        = Except.error (PTError.valueError
            "Found overlapping input and partial variables: [x]")
      ∧ "x" ∈ overlapList ["x"] [("x", PartialValue.pstr "a")]) := by
  constructor
  · exact (construction_validation [] ["stop"] none []).1 (by decide)
  · have h := (construction_validation [] ["x"] none
      [("x", PartialValue.pstr "a")]).2.2 "x" (by decide) (by decide)
      (by decide) (by decide)
    exact ⟨h.1.trans (by rfl), h.2⟩

/-- C9: `save` fails whenever partial variables are bound, regardless of the
path's extension; and with no partial variables, a path whose suffix is
neither ".json" nor ".yaml" fails naming the required extensions. An error
result means no file was written. -/
theorem save_error_conditions (t : PromptTemplate) (prompt_type : String)
    (file_path : String) :
    (t.partial_variables ≠ [] →
      t.save prompt_type file_path
        = Except.error (PTError.valueError "Cannot save prompt with partial variables.")) ∧
    (t.partial_variables = [] →
      pathSuffix file_path ≠ ".json" → pathSuffix file_path ≠ ".yaml" →
      t.save prompt_type file_path
        = Except.error (PTError.valueError s!"{file_path} must be json or yaml")) := by
  constructor
  · intro h
    simp [PromptTemplate.save, List.isEmpty_iff, h]
  · intro h hj hy
    simp [PromptTemplate.save, h, hj, hy]

/-- Witness for C9: a template with a partial variable cannot be saved even
to a ".json" path, and a partial-free template cannot be saved to ".txt". -/
theorem save_error_conditions_witness :
    (PromptTemplate.save ⟨[], ["x"], none, [("a", PartialValue.pstr "v")]⟩
        "prompt" "p.json"
      = Except.error (PTError.valueError "Cannot save prompt with partial variables.")) ∧
    (PromptTemplate.save ⟨[], ["x"], none, []⟩ "prompt" "p.txt"
      = Except.error (PTError.valueError "p.txt must be json or yaml")) := by
  constructor
  · exact (save_error_conditions ⟨[], ["x"], none, [("a", PartialValue.pstr "v")]⟩
      "prompt" "p.json").1 (by simp)
  · exact ((save_error_conditions ⟨[], ["x"], none, []⟩ "prompt" "p.txt").2
      rfl (by decide) (by decide)).trans (by rfl)

/-- C6: `format_document` builds the candidate mapping from the content field
under "page_content" with every metadata key merged after (metadata wins on
collision); when an input variable is absent from the candidate mapping it
fails listing the required names (input variables except "page_content") and
the actually missing ones; otherwise it calls the renderer with exactly the
candidate entries named by `input_variables`, in declared order, and returns
that result. -/
theorem format_document_spec (render : PyDict Value → String) (doc : Document)
    (prompt : PromptTemplate) :
    docBaseInfo doc
      = dictMerge [("page_content", Value.str doc.page_content)] doc.metadata ∧
    (∀ x ∈ prompt.input_variables, alookup (docBaseInfo doc) x = none →
      format_document render doc prompt
        = Except.error (PTError.valueError
            (missingMetadataMsg
              (prompt.input_variables.filter fun iv => iv ≠ "page_content")
              (missingMetadata doc prompt)))
      ∧ x ∈ missingMetadata doc prompt) ∧
    (prompt.input_variables.Nodup →
      (∀ x ∈ prompt.input_variables, (alookup (docBaseInfo doc) x).isSome) →
      format_document render doc prompt
        = Except.ok (render (prompt.input_variables.map
            fun k => (k, (alookup (docBaseInfo doc) k).getD (Value.str ""))))) := by
  refine ⟨rfl, ?_, ?_⟩
  · intro x hxiv hxnone
    have hx : x ∈ missingMetadata doc prompt := by
      unfold missingMetadata
      rw [List.mem_dedup, List.mem_filter]
      exact ⟨hxiv, by simp [hxnone]⟩
    have hpos : 0 < (missingMetadata doc prompt).length :=
      List.length_pos.mpr (List.ne_nil_of_mem hx)
    refine ⟨?_, hx⟩
    unfold format_document
    rw [if_pos hpos]
  · intro hnd hall
    have hnil : missingMetadata doc prompt = [] := by
      unfold missingMetadata
      rw [List.dedup_eq_nil, List.filter_eq_nil_iff]
      intro a ha
      have := hall a ha
      simp only [Option.isNone_iff_eq_none]
      intro hnone
      rw [hnone] at this
      cases this
    unfold format_document
    rw [hnil]
    simp only [List.length_nil, gt_iff_lt, Nat.lt_irrefl, if_false]
    rw [foldl_dictInsert_eq_map _ prompt.input_variables [] hnd (by simp [dictKeys])]
    rw [List.nil_append]

/-- Witness for C6: the spec's example document and template render through
the candidate mapping. -/
theorem format_document_spec_witness :
    format_document
      (fun d => match alookup d "page_content" with
        | some (Value.str s) => s
        | _ => "")
      ⟨"This is a joke", [("page", Value.str "1")]⟩
      ⟨[], ["page", "page_content"], none, []⟩
    = Except.ok "This is a joke" :=
  ((format_document_spec
      (fun d => match alookup d "page_content" with
        | some (Value.str s) => s
        | _ => "")
      ⟨"This is a joke", [("page", Value.str "1")]⟩
      ⟨[], ["page", "page_content"], none, []⟩).2.2 (by decide) (by decide)).trans
    (by rfl)

theorem alookup_resolve (d : PyDict PartialValue) (k : String) :
    alookup (d.map fun p => (p.1, Value.str (resolvePartial p.2))) k
      = (alookup d k).map fun s => Value.str (resolvePartial s) :=
  alookup_map_value (fun s => Value.str (resolvePartial s)) d k

theorem isSetListing_dedupListing : IsSetListing dedupListing :=
  fun xs => ⟨List.nodup_dedup xs, fun _ => List.mem_dedup⟩

theorem isSetListing_reverseListing : IsSetListing reverseListing :=
  fun xs =>
    ⟨List.nodup_reverse.mpr (List.nodup_dedup xs),
     fun a => by simp [reverseListing, List.mem_reverse, List.mem_dedup]⟩

theorem partialBind_ok_fields (setListing : List String → List String)
    (T : PromptTemplate) (kwargs : PyDict PartialValue) (T' : PromptTemplate)
    (h : T.partialBind setListing kwargs = Except.ok T') :
    T' = ⟨T.formatters,
      setListing (T.input_variables.filter fun x => (alookup kwargs x).isNone),
      T.outputParser, dictMerge T.partial_variables kwargs⟩ := by
  unfold PromptTemplate.partialBind at h
  exact ((mkPromptTemplate_ok_iff _ _ _ _ _).mp h).2

theorem mem_setListing_filter (setListing : List String → List String)
    (hsl : IsSetListing setListing) (iv : List String)
    (kwargs : PyDict PartialValue) (x : String) :
    x ∈ setListing (iv.filter fun y => (alookup kwargs y).isNone)
      ↔ x ∈ iv ∧ alookup kwargs x = none := by
  rw [(hsl _).2 x, List.mem_filter]
  simp [Option.isNone_iff_eq_none]

/-- C7: a successful `partial` yields a new instance carrying over the
formatters and output parser, with the bound names removed from the input
variables (as a set) and the bindings merged into the partial variables
(bindings win on collision); the original template, a pure value here, is
untouched by the derivation. -/
theorem partial_frame (setListing : List String → List String)
    (hsl : IsSetListing setListing) (T : PromptTemplate)
    (kwargs : PyDict PartialValue) (T' : PromptTemplate)
    (h : T.partialBind setListing kwargs = Except.ok T') :
    T'.formatters = T.formatters ∧
    T'.outputParser = T.outputParser ∧
    T'.partial_variables = dictMerge T.partial_variables kwargs ∧
    T'.input_variables.Nodup ∧
    (∀ x, x ∈ T'.input_variables ↔
      x ∈ T.input_variables ∧ alookup kwargs x = none) := by
  obtain rfl := partialBind_ok_fields setListing T kwargs T' h
  exact ⟨rfl, rfl, rfl, (hsl _).1,
    mem_setListing_filter setListing hsl T.input_variables kwargs⟩

/-- Witness for C7: deriving a partial for "x" from a two-variable template
moves the binding into the partial variables. -/
theorem partial_frame_witness :
    (⟨[], ["y"], none, [("x", PartialValue.pstr "foo")]⟩ : PromptTemplate).partial_variables
      = dictMerge [] [("x", PartialValue.pstr "foo")] :=
  (partial_frame dedupListing isSetListing_dedupListing
    ⟨[], ["x", "y"], none, []⟩ [("x", PartialValue.pstr "foo")]
    ⟨[], ["y"], none, [("x", PartialValue.pstr "foo")]⟩ rfl).2.2.1

/-- C10: the input variables of a `partial` result equal, as a set, the
original input variables minus the bound names; but the order of the
resulting list is whatever the unordered-set iteration yields — for some
admissible set order (and some template and bindings) the remaining names
are not in the template's declared relative order. -/
theorem partial_input_variables_set :
    (∀ setListing : List String → List String, IsSetListing setListing →
      ∀ (T T' : PromptTemplate) (kwargs : PyDict PartialValue),
        T.partialBind setListing kwargs = Except.ok T' →
        ∀ x, x ∈ T'.input_variables ↔
          x ∈ T.input_variables ∧ x ∉ dictKeys kwargs) ∧
    (∃ setListing : List String → List String, IsSetListing setListing ∧
      ∃ (T T' : PromptTemplate) (kwargs : PyDict PartialValue),
        T.partialBind setListing kwargs = Except.ok T' ∧
        T'.input_variables
          ≠ T.input_variables.filter fun x => (alookup kwargs x).isNone) := by
  constructor
  · intro setListing hsl T T' kwargs h x
    obtain rfl := partialBind_ok_fields setListing T kwargs T' h
    rw [show (⟨T.formatters, _, T.outputParser, _⟩ : PromptTemplate).input_variables
        = setListing (T.input_variables.filter fun y => (alookup kwargs y).isNone)
      from rfl]
    rw [mem_setListing_filter setListing hsl T.input_variables kwargs x]
    rw [alookup_eq_none_iff]
  · refine ⟨reverseListing, isSetListing_reverseListing,
      ⟨[], ["a", "b", "c"], none, []⟩,
      ⟨[], ["b", "a"], none, [("c", PartialValue.pstr "v")]⟩,
      [("c", PartialValue.pstr "v")], rfl, ?_⟩
    decide

/-- Witness for C10: the set-level description of the remaining input
variables at a concrete instance. -/
theorem partial_input_variables_set_witness :
    "y" ∈ (⟨[], ["y"], none, [("x", PartialValue.pstr "foo")]⟩ : PromptTemplate).input_variables
      ↔ "y" ∈ (["x", "y"] : List String)
        ∧ "y" ∉ dictKeys [("x", PartialValue.pstr "foo")] :=
  partial_input_variables_set.1 dedupListing isSetListing_dedupListing
    ⟨[], ["x", "y"], none, []⟩
    ⟨[], ["y"], none, [("x", PartialValue.pstr "foo")]⟩
    [("x", PartialValue.pstr "foo")] rfl "y"

/-- C8 counterexample: binding a key ("y") that is not a declared input
variable does not fail — `partial` succeeds and returns a new template with
the binding recorded. -/
theorem partial_undeclared_key_cex :
    PromptTemplate.partialBind dedupListing ⟨[], ["x"], none, []⟩
        [("y", PartialValue.pstr "foo")]
      = Except.ok ⟨[], ["x"], none, [("y", PartialValue.pstr "foo")]⟩ := rfl

/-- C8 amended: calling `partial` with a binding key that is not a declared
input variable does not fail with an error; provided the template's own
validation conditions hold and the key is not the reserved name "stop", the
call succeeds, leaves the input-variable set unchanged, and records the
binding among the partial variables. -/
theorem partial_undeclared_key_succeeds (setListing : List String → List String)
    (hsl : IsSetListing setListing) (T : PromptTemplate)
    (hval : validate_variable_names T.input_variables T.partial_variables
      = Except.ok ())
    (k : String) (pv : PartialValue)
    (hk : k ∉ T.input_variables) (hks : k ≠ "stop") :
    ∃ T', T.partialBind setListing [(k, pv)] = Except.ok T' ∧
      alookup T'.partial_variables k = some pv ∧
      ∀ x, x ∈ T'.input_variables ↔ x ∈ T.input_variables := by
  have hfilter : (T.input_variables.filter fun x => (alookup [(k, pv)] x).isNone)
      = T.input_variables := by
    apply List.filter_eq_self.mpr
    intro x hx
    have hxk : ¬k = x := fun he => hk (he ▸ hx)
    simp [alookup, hxk]
  have hmemL : ∀ x,
      x ∈ setListing (T.input_variables.filter fun x => (alookup [(k, pv)] x).isNone)
        ↔ x ∈ T.input_variables := by
    intro x
    rw [hfilter]
    exact (hsl _).2 x
  obtain ⟨h1, h2, h3⟩ := (validate_ok_iff _ _).mp hval
  have hvalnew : validate_variable_names
      (setListing (T.input_variables.filter fun x => (alookup [(k, pv)] x).isNone))
      (dictMerge T.partial_variables [(k, pv)]) = Except.ok () := by
    rw [validate_ok_iff]
    refine ⟨fun hs => h1 ((hmemL _).mp hs), ?_, ?_⟩
    · intro hs
      rw [mem_dictKeys_dictMerge] at hs
      rcases hs with hs | hs
      · exact h2 hs
      · simp [dictKeys] at hs
        exact hks hs.symm
    · intro x hxL
      rw [mem_dictKeys_dictMerge]
      push_neg
      have hxiv := (hmemL x).mp hxL
      refine ⟨h3 x hxiv, ?_⟩
      simp only [dictKeys, List.map_cons, List.map_nil, List.mem_singleton]
      exact fun he => hk (he ▸ hxiv)
  refine ⟨⟨T.formatters,
      setListing (T.input_variables.filter fun x => (alookup [(k, pv)] x).isNone),
      T.outputParser, dictMerge T.partial_variables [(k, pv)]⟩, ?_, ?_, hmemL⟩
  · unfold PromptTemplate.partialBind
    rw [mkPromptTemplate_ok_iff]
    exact ⟨hvalnew, rfl⟩
  · rw [show dictMerge T.partial_variables [(k, pv)]
        = dictInsert T.partial_variables k pv from rfl]
    rw [alookup_dictInsert]
    simp

/-- Witness for C8 (amended): a concrete template with input variable "x"
accepts a binding for the undeclared key "y". -/
theorem partial_undeclared_key_succeeds_witness :
    ∃ T', PromptTemplate.partialBind dedupListing ⟨[], ["x"], none, []⟩
        [("y", PartialValue.pstr "foo")] = Except.ok T' ∧
      alookup T'.partial_variables "y" = some (PartialValue.pstr "foo") ∧
      ∀ x, x ∈ T'.input_variables ↔ x ∈ (["x"] : List String) :=
  partial_undeclared_key_succeeds dedupListing isSetListing_dedupListing
    ⟨[], ["x"], none, []⟩ rfl "y" (PartialValue.pstr "foo")
    (by decide) (by decide)

/-- C2: binding a variable to a string via `partial` and then preparing with
the remaining variables supplied yields exactly the prepared mapping of the
original template with that binding supplied directly alongside the
remaining variables — partial binding is deferred direct supply. -/
theorem partial_prepare_eq_direct (setListing : List String → List String)
    (T T' : PromptTemplate) (x foo : String) (kwargs : PyDict Value) (fuel : Nat)
    (hx : x ∉ dictKeys T.partial_variables)
    (_hxk : alookup kwargs x = none)
    (h : T.partialBind setListing [(x, PartialValue.pstr foo)] = Except.ok T') :
    T'._prepare_variables fuel kwargs
      = T._prepare_variables fuel ((x, Value.str foo) :: kwargs) := by
  unfold PromptTemplate.partialBind at h
  obtain ⟨-, rfl⟩ := (mkPromptTemplate_ok_iff _ _ _ _ _).mp h
  have hpv : dictMerge T.partial_variables [(x, PartialValue.pstr foo)]
      = T.partial_variables ++ [(x, PartialValue.pstr foo)] := by
    rw [show dictMerge T.partial_variables [(x, PartialValue.pstr foo)]
        = dictInsert T.partial_variables x (PartialValue.pstr foo) from rfl]
    exact dictInsert_of_not_mem _ hx
  unfold PromptTemplate._prepare_variables
  dsimp only
  congr 1
  rw [hpv, List.map_append, dictMerge_cons]
  dsimp only
  have hxpk : x ∉ dictKeys
      (T.partial_variables.map fun p => (p.1, Value.str (resolvePartial p.2))) := by
    intro hmem
    apply hx
    unfold dictKeys at hmem ⊢
    rw [List.map_map] at hmem
    exact hmem
  rw [dictInsert_of_not_mem _ hxpk]
  rfl

/-- Witness for C2: partial-then-prepare equals direct supply at a concrete
two-variable template. -/
theorem partial_prepare_eq_direct_witness :
    (⟨[], ["y"], none, [("x", PartialValue.pstr "foo")]⟩ : PromptTemplate)._prepare_variables
        1 [("y", Value.str "bar")]
      = (⟨[], ["x", "y"], none, []⟩ : PromptTemplate)._prepare_variables
          1 [("x", Value.str "foo"), ("y", Value.str "bar")] :=
  partial_prepare_eq_direct dedupListing
    ⟨[], ["x", "y"], none, []⟩
    ⟨[], ["y"], none, [("x", PartialValue.pstr "foo")]⟩
    "x" "foo" [("y", Value.str "bar")] 1 (by decide) rfl rfl

/-- C3: the prepared mapping resolves each partial variable (a plain string
as-is, a zero-argument callable invoked at preparation time), overlays the
supplied mapping (supplied wins on collision), and formats every value of the
merge through the registry: a name maps to its formatted supplied value when
supplied, else to its formatted resolved partial value, else to nothing. -/
theorem prepare_variables_spec (T : PromptTemplate) (kwargs : PyDict Value)
    (fuel : Nat) (res : PyDict Value)
    (hnd : (dictKeys kwargs).Nodup)
    (h : T._prepare_variables fuel kwargs = Except.ok res) (k : String) :
    (∀ v, alookup kwargs k = some v →
      ∃ w, _format_value fuel T.formatters v = Except.ok w
        ∧ alookup res k = some w) ∧
    (alookup kwargs k = none →
      ∀ p, alookup T.partial_variables k = some p →
        ∃ w, _format_value fuel T.formatters (Value.str (resolvePartial p))
            = Except.ok w
          ∧ alookup res k = some w) ∧
    (alookup kwargs k = none → alookup T.partial_variables k = none →
      alookup res k = none) := by
  unfold PromptTemplate._prepare_variables at h
  have hme := formatEntries_lookup h k
  have hmerge := alookup_dictMerge
    (T.partial_variables.map fun p => (p.1, Value.str (resolvePartial p.2)))
    kwargs hnd k
  refine ⟨?_, ?_, ?_⟩
  · intro v hv
    exact hme.1 v (by rw [hmerge, hv])
  · intro hkn p hp
    refine hme.1 (Value.str (resolvePartial p)) ?_
    rw [hmerge, hkn]
    dsimp only
    rw [alookup_resolve, hp]
    rfl
  · intro hkn hpn
    apply hme.2
    rw [hmerge, hkn]
    dsimp only
    rw [alookup_resolve, hpn]
    rfl

/-- Witness for C3: a template with one literal and one callable partial
variable; the callable is invoked at preparation time. -/
theorem prepare_variables_spec_witness :
    ∃ w, _format_value 1 []
        (Value.str (resolvePartial (PartialValue.pfun fun _ => "C")))
        = Except.ok w
      ∧ alookup [("a", Value.str "A"), ("c", Value.str "C"), ("b", Value.str "B")]
          "c" = some w :=
  (prepare_variables_spec
    ⟨[], ["b"], none,
      [("a", PartialValue.pstr "A"), ("c", PartialValue.pfun fun _ => "C")]⟩
    [("b", Value.str "B")] 1
    [("a", Value.str "A"), ("c", Value.str "C"), ("b", Value.str "B")]
    (by decide) rfl "c").2.1 rfl (PartialValue.pfun fun _ => "C") rfl

end LangChain
